import Mathlib

/-
Verification development for the HzWKingoftheHill repository.

The embedding models the two state-replication subsystems:
  * TeamManager (src/TeamManager.ts): the authoritative team roster,
    balanced assignment, leave handling, full-snapshot broadcast and the
    replica apply handler onTeamAssignmentUpdate.
  * ControlPoint (src/ControlPoint.ts, authority iteration): occupant
    sets per team, the state recomputation and conditional broadcast in
    updateControlPointStateAuthority, trigger enter and exit handlers,
    the late-join resync in onPlayerJoined, and the replica apply
    handler onControlPointStateChanged.

Players and entities are identified by their stable debugId (a string).
JavaScript Map is modelled as an insertion-ordered association list
(set replaces in place, otherwise appends; get returns the binding;
delete removes the binding).  JavaScript Set is modelled as a
duplicate-free list (add appends when absent; delete removes).
Counts are modelled as integers.
-/

namespace KOTH

abbrev Player := String

abbrev EntityId := String

/-- Team enumeration from src/TeamManager.ts (Red, Blue). -/
inductive Team where
  | Red
  | Blue
deriving DecidableEq, Repr

/-- Lookup in a JavaScript Map modelled as an association list
(Map.prototype.get). -/
def mapGet : List (Player × Team) → Player → Option Team
  | [], _ => none
  | (k, v) :: rest, key => if k = key then some v else mapGet rest key

/-- Insertion into a JavaScript Map: replace the existing binding in
place, otherwise append (Map.prototype.set). -/
def mapSet : List (Player × Team) → Player → Team → List (Player × Team)
  | [], key, val => [(key, val)]
  | (k, v) :: rest, key, val =>
      if k = key then (key, val) :: rest else (k, v) :: mapSet rest key val

/-- Deletion from a JavaScript Map: remove the binding for the key
(Map.prototype.delete). -/
def mapDelete : List (Player × Team) → Player → List (Player × Team)
  | [], _ => []
  | (k, v) :: rest, key =>
      if k = key then rest else (k, v) :: mapDelete rest key

/-- Addition to a JavaScript Set: append when absent (Set.prototype.add). -/
def setAdd (s : List Player) (x : Player) : List Player :=
  if x ∈ s then s else s ++ [x]

/-- Removal from a JavaScript Set (Set.prototype.delete). -/
def setDelete : List Player → Player → List Player
  | [], _ => []
  | y :: rest, x => if y = x then setDelete rest x else y :: setDelete rest x

/-- TeamAssignmentPayload from src/TeamManager.ts: full-snapshot wire
payload with enumerated rosters and authoritative counts. -/
structure TeamAssignmentPayload where
  redTeamPlayers : List Player
  blueTeamPlayers : List Player
  redTeamCount : Int
  blueTeamCount : Int
deriving DecidableEq, Repr

/-- The TeamManager component state: the static playerTeams map and the
two team counters. -/
structure TeamManagerState where
  playerTeams : List (Player × Team)
  redTeamCount : Int
  blueTeamCount : Int
deriving DecidableEq, Repr

/-- Initial TeamManager state: empty roster, both counters zero. -/
def initialTeamManagerState : TeamManagerState :=
  { playerTeams := [], redTeamCount := 0, blueTeamCount := 0 }

/-- assignPlayerToTeamWithBalancing (src/TeamManager.ts lines 196-212):
assign to Red when redTeamCount <= blueTeamCount, otherwise Blue;
increment the chosen counter; record the roster entry.  Returns the new
state and the assigned team. -/
def assignPlayerToTeamWithBalancing (s : TeamManagerState) (player : Player) :
    TeamManagerState × Team :=
  if s.redTeamCount ≤ s.blueTeamCount then
    ({ s with
        redTeamCount := s.redTeamCount + 1
        playerTeams := mapSet s.playerTeams player Team.Red }, Team.Red)
  else
    ({ s with
        blueTeamCount := s.blueTeamCount + 1
        playerTeams := mapSet s.playerTeams player Team.Blue }, Team.Blue)

/-- removePlayerFromTeamWithBalancing (src/TeamManager.ts lines 217-228):
decrement the leaving player's team counter floored at 0 via
Math.max(0, count - 1), then delete the roster entry. -/
def removePlayerFromTeamWithBalancing (s : TeamManagerState) (player : Player) :
    TeamManagerState :=
  let s1 : TeamManagerState :=
    match mapGet s.playerTeams player with
    | some Team.Red => { s with redTeamCount := max 0 (s.redTeamCount - 1) }
    | some Team.Blue => { s with blueTeamCount := max 0 (s.blueTeamCount - 1) }
    | none => s
  { s1 with playerTeams := mapDelete s1.playerTeams player }

/-- broadcastCompleteTeamAssignment (src/TeamManager.ts lines 233-258):
build the full-snapshot payload by enumerating the roster per team and
attaching the current counters. -/
def broadcastCompleteTeamAssignment (s : TeamManagerState) : TeamAssignmentPayload :=
  { redTeamPlayers :=
      ((s.playerTeams.filter fun e => e.2 = Team.Red).map Prod.fst)
    blueTeamPlayers :=
      ((s.playerTeams.filter fun e => e.2 = Team.Blue).map Prod.fst)
    redTeamCount := s.redTeamCount
    blueTeamCount := s.blueTeamCount }

/-- onPlayerJoined (src/TeamManager.ts lines 79-108), authority path:
balanced assignment followed by a full-snapshot broadcast. -/
def onPlayerJoined (s : TeamManagerState) (player : Player) :
    TeamManagerState × Option TeamAssignmentPayload :=
  let s1 := (assignPlayerToTeamWithBalancing s player).1
  (s1, some (broadcastCompleteTeamAssignment s1))

/-- onPlayerLeft (src/TeamManager.ts lines 115-149), authority path: a
player with no roster entry is a logged no-op with no broadcast; a
rostered player is removed with balancing and a full snapshot is
broadcast. -/
def onPlayerLeft (s : TeamManagerState) (player : Player) :
    TeamManagerState × Option TeamAssignmentPayload :=
  match mapGet s.playerTeams player with
  | some _ =>
      let s1 := removePlayerFromTeamWithBalancing s player
      (s1, some (broadcastCompleteTeamAssignment s1))
  | none => (s, none)

/-- getEntityById (src/TeamManager.ts lines 264-272): scan the keys of
the current playerTeams map for a matching debugId. -/
def getEntityById : List (Player × Team) → Player → Option Player
  | [], _ => none
  | (k, _) :: rest, debugId =>
      if k = debugId then some k else getEntityById rest debugId

/-- The rebuild loops of onTeamAssignmentUpdate (src/TeamManager.ts
lines 166-179): for each id in the payload list, look the entity up via
getEntityById against the map being rebuilt and, when found, set its
team. -/
def rebuildTeam (m : List (Player × Team)) (ids : List Player) (team : Team) :
    List (Player × Team) :=
  ids.foldl
    (fun acc pid =>
      match getEntityById acc pid with
      | some e => mapSet acc e team
      | none => acc)
    m

/-- onTeamAssignmentUpdate (src/TeamManager.ts lines 157-191), the
replica apply handler: clear playerTeams, rebuild the red and blue
rosters through getEntityById, then overwrite both counters from the
payload. -/
def onTeamAssignmentUpdate (s : TeamManagerState) (payload : TeamAssignmentPayload) :
    TeamManagerState :=
  let cleared : List (Player × Team) := []
  let m1 := rebuildTeam cleared payload.redTeamPlayers Team.Red
  let m2 := rebuildTeam m1 payload.blueTeamPlayers Team.Blue
  { s with
      playerTeams := m2
      redTeamCount := payload.redTeamCount
      blueTeamCount := payload.blueTeamCount }

/-- TeamManager authority events: a player-join or a player-leave. -/
inductive TMEvent where
  | join (p : Player)
  | leave (p : Player)
deriving DecidableEq, Repr

/-- One authority TeamManager event step, returning the new state and
the optional broadcast payload. -/
def stepTM (s : TeamManagerState) : TMEvent → TeamManagerState × Option TeamAssignmentPayload
  | TMEvent.join p => onPlayerJoined s p
  | TMEvent.leave p => onPlayerLeft s p

/-- Run a sequence of authority TeamManager events. -/
def runTM (s : TeamManagerState) : List TMEvent → TeamManagerState
  | [] => s
  | e :: es => runTM (stepTM s e).1 es

/-- ControlPointState enumeration from src/ControlPoint.ts. -/
inductive ControlPointState where
  | Neutral
  | RedControlled
  | BlueControlled
  | Contested
deriving DecidableEq, Repr

/-- ControlPointStateChangedPayload from src/ControlPoint.ts: the
control point entity, the new state and both occupant counts. -/
structure ControlPointStateChangedPayload where
  controlPointEntity : EntityId
  newState : ControlPointState
  redPlayersCount : Int
  bluePlayersCount : Int
deriving DecidableEq, Repr

/-- The authority ControlPoint component state: its entity, the two
occupant sets and the current state. -/
structure ControlPointAuthorityState where
  entityId : EntityId
  redPlayersInTrigger : List Player
  bluePlayersInTrigger : List Player
  currentState : ControlPointState
deriving DecidableEq, Repr

/-- Initial ControlPoint state: empty occupant sets, Neutral. -/
def initialControlPoint (id : EntityId) : ControlPointAuthorityState :=
  { entityId := id
    redPlayersInTrigger := []
    bluePlayersInTrigger := []
    currentState := ControlPointState.Neutral }

/-- The state recomputation of updateControlPointStateAuthority
(src/ControlPoint.ts lines 568-580): Contested when both sets are
occupied, RedControlled when only red, BlueControlled when only blue,
Neutral otherwise. -/
def computedState (red blue : List Player) : ControlPointState :=
  if red.length > 0 ∧ blue.length > 0 then ControlPointState.Contested
  else if red.length > 0 then ControlPointState.RedControlled
  else if blue.length > 0 then ControlPointState.BlueControlled
  else ControlPointState.Neutral

/-- updateControlPointStateAuthority (src/ControlPoint.ts lines
567-604): recompute the state from the occupant sets; when unchanged
return with no broadcast, otherwise store the new state and broadcast
it with both occupant counts. -/
def updateControlPointStateAuthority (s : ControlPointAuthorityState) :
    ControlPointAuthorityState × Option ControlPointStateChangedPayload :=
  let newControlPointState := computedState s.redPlayersInTrigger s.bluePlayersInTrigger
  if newControlPointState = s.currentState then (s, none)
  else
    ({ s with currentState := newControlPointState },
     some
       { controlPointEntity := s.entityId
         newState := newControlPointState
         redPlayersCount := (s.redPlayersInTrigger.length : Int)
         bluePlayersCount := (s.bluePlayersInTrigger.length : Int) })

/-- onTriggerEnter (src/ControlPoint.ts lines 466-529), authority path:
look the actor's team up in the team registry; with no entry the touch
is ignored, otherwise the actor is added to the matching occupant set
and the state is recomputed and conditionally broadcast.  The registry
consulted at this moment is passed in as the roster argument. -/
def onTriggerEnterAuthority (roster : List (Player × Team))
    (s : ControlPointAuthorityState) (actor : Player) :
    ControlPointAuthorityState × Option ControlPointStateChangedPayload :=
  match mapGet roster actor with
  | none => (s, none)
  | some Team.Red =>
      updateControlPointStateAuthority
        { s with redPlayersInTrigger := setAdd s.redPlayersInTrigger actor }
  | some Team.Blue =>
      updateControlPointStateAuthority
        { s with bluePlayersInTrigger := setAdd s.bluePlayersInTrigger actor }

/-- onTriggerExit (src/ControlPoint.ts lines 535-561), authority path:
remove the actor from both occupant sets unconditionally, then
recompute and conditionally broadcast. -/
def onTriggerExitAuthority (s : ControlPointAuthorityState) (actor : Player) :
    ControlPointAuthorityState × Option ControlPointStateChangedPayload :=
  updateControlPointStateAuthority
    { s with
        redPlayersInTrigger := setDelete s.redPlayersInTrigger actor
        bluePlayersInTrigger := setDelete s.bluePlayersInTrigger actor }

/-- onPlayerJoined (src/ControlPoint.ts lines 420-460), the authority
late-join resync: when the current state is not Neutral, re-send the
current state with both occupant counts; when Neutral, send nothing. -/
def onPlayerJoinedControlPoint (s : ControlPointAuthorityState) :
    Option ControlPointStateChangedPayload :=
  if s.currentState ≠ ControlPointState.Neutral then
    some
      { controlPointEntity := s.entityId
        newState := s.currentState
        redPlayersCount := (s.redPlayersInTrigger.length : Int)
        bluePlayersCount := (s.bluePlayersInTrigger.length : Int) }
  else none

/-- The replica ControlPoint mirror: its entity and the locally applied
state. -/
structure ControlPointReplicaState where
  entityId : EntityId
  currentState : ControlPointState
deriving DecidableEq, Repr

/-- onControlPointStateChanged (src/ControlPoint.ts lines 613-631), the
replica apply handler: ignore payloads for a different control point,
otherwise overwrite the local state from the payload. -/
def onControlPointStateChanged (s : ControlPointReplicaState)
    (payload : ControlPointStateChangedPayload) : ControlPointReplicaState :=
  if payload.controlPointEntity ≠ s.entityId then s
  else { s with currentState := payload.newState }

/-- Authority ControlPoint events: a trigger-enter (with the team
registry visible at that moment) or a trigger-exit. -/
inductive CPEvent where
  | enterTrig (roster : List (Player × Team)) (actor : Player)
  | exitTrig (actor : Player)

/-- One authority ControlPoint event step. -/
def stepCP (s : ControlPointAuthorityState) :
    CPEvent → ControlPointAuthorityState × Option ControlPointStateChangedPayload
  | CPEvent.enterTrig roster actor => onTriggerEnterAuthority roster s actor
  | CPEvent.exitTrig actor => onTriggerExitAuthority s actor

/-- Run a sequence of authority ControlPoint events. -/
def runCP (s : ControlPointAuthorityState) : List CPEvent → ControlPointAuthorityState
  | [] => s
  | e :: es => runCP (stepCP s e).1 es

/-- Run a sequence of authority ControlPoint events, collecting the
optional broadcast of each step. -/
def runCPTrace (s : ControlPointAuthorityState) :
    List CPEvent → List (Option ControlPointStateChangedPayload)
  | [] => []
  | e :: es => (stepCP s e).2 :: runCPTrace (stepCP s e).1 es

/-- The state table of spec section 4.2, as a function of the two
occupancy flags (hasRed, hasBlue). -/
def specStateTable : Bool → Bool → ControlPointState
  | true, true => ControlPointState.Contested
  | true, false => ControlPointState.RedControlled
  | false, true => ControlPointState.BlueControlled
  | false, false => ControlPointState.Neutral

theorem mapGet_mapSet_same (m : List (Player × Team)) (k : Player) (v : Team) :
    mapGet (mapSet m k v) k = some v := by
  induction m with
  | nil => simp [mapSet, mapGet]
  | cons e rest ih =>
      obtain ⟨a, b⟩ := e
      by_cases h : a = k
      · simp [mapSet, h, mapGet]
      · simp [mapSet, h, mapGet, ih]

theorem rebuildTeam_nil (ids : List Player) (team : Team) :
    rebuildTeam [] ids team = [] := by
  induction ids with
  | nil => rfl
  | cons pid rest ih => exact ih

theorem onTeamAssignmentUpdate_closed (s : TeamManagerState) (p : TeamAssignmentPayload) :
    onTeamAssignmentUpdate s p =
      { playerTeams := []
        redTeamCount := p.redTeamCount
        blueTeamCount := p.blueTeamCount } := by
  simp [onTeamAssignmentUpdate, rebuildTeam_nil]

/-- Claim C1 (code-bug evidence).  The replica apply handler
onTeamAssignmentUpdate clears playerTeams and then performs every
getEntityById lookup against the map it just cleared, so the rebuild
loops can never re-add a player: the mirror is empty after every apply.
In particular, applying a payload that lists p1 on the red team leaves
p1 with no team in the mirror, even when p1 was in the mirror before
the apply, contradicting the full-snapshot replace contract. -/
theorem snapshot_apply_empties_mirror :
    (∀ (s : TeamManagerState) (p : TeamAssignmentPayload),
        (onTeamAssignmentUpdate s p).playerTeams = [])
    ∧ (onTeamAssignmentUpdate
        { playerTeams := [("p1", Team.Red)], redTeamCount := 1, blueTeamCount := 0 }
        { redTeamPlayers := ["p1"], blueTeamPlayers := []
          redTeamCount := 1, blueTeamCount := 0 }).playerTeams = []
    ∧ mapGet (onTeamAssignmentUpdate initialTeamManagerState
        { redTeamPlayers := ["p1"], blueTeamPlayers := []
          redTeamCount := 1, blueTeamCount := 0 }).playerTeams "p1" = none := by
  refine ⟨fun s p => ?_, ?_, ?_⟩
  · rw [onTeamAssignmentUpdate_closed]
  · rw [onTeamAssignmentUpdate_closed]
  · rw [onTeamAssignmentUpdate_closed]
    rfl

/-- Claim C3: applying a team-snapshot payload twice in a row through
onTeamAssignmentUpdate, or a control-point-state payload twice in a
row through onControlPointStateChanged, yields the same state as
applying it once. -/
theorem apply_broadcast_idempotent (s : TeamManagerState) (p : TeamAssignmentPayload)
    (c : ControlPointReplicaState) (q : ControlPointStateChangedPayload) :
    onTeamAssignmentUpdate (onTeamAssignmentUpdate s p) p = onTeamAssignmentUpdate s p
    ∧ onControlPointStateChanged (onControlPointStateChanged c q) q
        = onControlPointStateChanged c q := by
  constructor
  · simp [onTeamAssignmentUpdate_closed]
  · by_cases h : q.controlPointEntity ≠ c.entityId
    · simp [onControlPointStateChanged, h]
    · simp [onControlPointStateChanged, h]

/-- Claim C4: the authority join assignment is the greedy balanced one:
Red exactly when redTeamCount is at most blueTeamCount (ties to Red),
Blue otherwise; the chosen team's counter is incremented, the other is
untouched, and the roster entry is set to the chosen team. -/
theorem assign_balancing_greedy (s : TeamManagerState) (p : Player) :
    ((assignPlayerToTeamWithBalancing s p).2 = Team.Red ↔
        s.redTeamCount ≤ s.blueTeamCount)
    ∧ ((assignPlayerToTeamWithBalancing s p).2 = Team.Red →
        (assignPlayerToTeamWithBalancing s p).1.redTeamCount = s.redTeamCount + 1
          ∧ (assignPlayerToTeamWithBalancing s p).1.blueTeamCount = s.blueTeamCount)
    ∧ ((assignPlayerToTeamWithBalancing s p).2 = Team.Blue →
        (assignPlayerToTeamWithBalancing s p).1.blueTeamCount = s.blueTeamCount + 1
          ∧ (assignPlayerToTeamWithBalancing s p).1.redTeamCount = s.redTeamCount)
    ∧ mapGet (assignPlayerToTeamWithBalancing s p).1.playerTeams p
        = some (assignPlayerToTeamWithBalancing s p).2 := by
  by_cases h : s.redTeamCount ≤ s.blueTeamCount <;>
    simp [assignPlayerToTeamWithBalancing, h, mapGet_mapSet_same]

/-- Witness for claim C4, at the initial state: the first joining
player goes to Red and the red counter becomes one. -/
theorem assign_balancing_greedy_witness :
    (assignPlayerToTeamWithBalancing initialTeamManagerState "A").2 = Team.Red
    ∧ (assignPlayerToTeamWithBalancing initialTeamManagerState "A").1.redTeamCount
        = initialTeamManagerState.redTeamCount + 1
    ∧ (assignPlayerToTeamWithBalancing initialTeamManagerState "A").1.blueTeamCount
        = initialTeamManagerState.blueTeamCount := by
  have h := assign_balancing_greedy initialTeamManagerState "A"
  have hr : (assignPlayerToTeamWithBalancing initialTeamManagerState "A").2 = Team.Red :=
    h.1.mpr (by decide)
  exact ⟨hr, (h.2.1 hr).1, (h.2.1 hr).2⟩

/-- Claim C7: on a player join, the authority control point re-sends a
broadcast with its entity, current state and both occupant counts
exactly when its current state is not Neutral, and sends nothing when
it is Neutral. -/
theorem late_join_resync (s : ControlPointAuthorityState) :
    (s.currentState ≠ ControlPointState.Neutral →
      onPlayerJoinedControlPoint s =
        some
          { controlPointEntity := s.entityId
            newState := s.currentState
            redPlayersCount := (s.redPlayersInTrigger.length : Int)
            bluePlayersCount := (s.bluePlayersInTrigger.length : Int) })
    ∧ (s.currentState = ControlPointState.Neutral →
        onPlayerJoinedControlPoint s = none) := by
  constructor <;> intro h <;> simp [onPlayerJoinedControlPoint, h]

/-- A concrete contested control point used by witnesses. -/
def contestedCP : ControlPointAuthorityState :=
  { entityId := "cp1"
    redPlayersInTrigger := ["A"]
    bluePlayersInTrigger := ["B"]
    currentState := ControlPointState.Contested }

/-- Witness for claim C7: a contested control point re-sends its state
on a join, and a neutral one sends nothing. -/
theorem late_join_resync_witness :
    onPlayerJoinedControlPoint contestedCP =
      some
        { controlPointEntity := "cp1"
          newState := ControlPointState.Contested
          redPlayersCount := 1
          bluePlayersCount := 1 }
    ∧ onPlayerJoinedControlPoint (initialControlPoint "cp1") = none := by
  refine ⟨?_, (late_join_resync (initialControlPoint "cp1")).2 rfl⟩
  have h := (late_join_resync contestedCP).1 (by decide)
  exact h

/-- Claim C9: a trigger-enter from a player with no entry in the team
registry leaves the control point state, both occupant sets and the
broadcast channel untouched. -/
theorem unassigned_touch_ignored (roster : List (Player × Team))
    (s : ControlPointAuthorityState) (p : Player)
    (h : mapGet roster p = none) :
    onTriggerEnterAuthority roster s p = (s, none) := by
  simp [onTriggerEnterAuthority, h]

/-- Witness for claim C9: an enter against an empty registry is a
no-op. -/
theorem unassigned_touch_ignored_witness :
    onTriggerEnterAuthority [] (initialControlPoint "cp1") "A"
      = (initialControlPoint "cp1", none) :=
  unassigned_touch_ignored [] (initialControlPoint "cp1") "A" rfl

theorem updateCP_fst_red (s : ControlPointAuthorityState) :
    ((updateControlPointStateAuthority s).1).redPlayersInTrigger = s.redPlayersInTrigger := by
  unfold updateControlPointStateAuthority
  by_cases h :
      computedState s.redPlayersInTrigger s.bluePlayersInTrigger = s.currentState <;>
    simp [h]

theorem updateCP_fst_blue (s : ControlPointAuthorityState) :
    ((updateControlPointStateAuthority s).1).bluePlayersInTrigger = s.bluePlayersInTrigger := by
  unfold updateControlPointStateAuthority
  by_cases h :
      computedState s.redPlayersInTrigger s.bluePlayersInTrigger = s.currentState <;>
    simp [h]

theorem updateCP_fst_state (s : ControlPointAuthorityState) :
    ((updateControlPointStateAuthority s).1).currentState
      = computedState s.redPlayersInTrigger s.bluePlayersInTrigger := by
  unfold updateControlPointStateAuthority
  by_cases h :
      computedState s.redPlayersInTrigger s.bluePlayersInTrigger = s.currentState <;>
    simp [h]

/-- State invariant of the authority control point: the stored state is
the pure function of the occupant sets. -/
def stateInv (s : ControlPointAuthorityState) : Prop :=
  s.currentState = computedState s.redPlayersInTrigger s.bluePlayersInTrigger

theorem stepCP_inv (s : ControlPointAuthorityState) (e : CPEvent) (h : stateInv s) :
    stateInv (stepCP s e).1 := by
  cases e with
  | enterTrig roster actor =>
      cases hteam : mapGet roster actor with
      | none => simpa [stepCP, onTriggerEnterAuthority, hteam] using h
      | some t =>
          cases t <;>
            simp [stateInv, stepCP, onTriggerEnterAuthority, hteam,
              updateCP_fst_red, updateCP_fst_blue, updateCP_fst_state]
  | exitTrig actor =>
      simp [stateInv, stepCP, onTriggerExitAuthority,
        updateCP_fst_red, updateCP_fst_blue, updateCP_fst_state]

theorem runCP_inv (es : List CPEvent) (s : ControlPointAuthorityState) (h : stateInv s) :
    stateInv (runCP s es) := by
  induction es generalizing s with
  | nil => exact h
  | cons e es ih => exact ih _ (stepCP_inv s e h)

theorem computedState_eq_table (red blue : List Player) :
    computedState red blue = specStateTable (!red.isEmpty) (!blue.isEmpty) := by
  cases red <;> cases blue <;> simp [computedState, specStateTable]

/-- Claim C2: after any sequence of authority trigger-enter and
trigger-exit events, the control point state equals the section 4.2
table applied to the two occupancy flags: Contested when both occupant
sets are non-empty, RedControlled when only red, BlueControlled when
only blue, Neutral when both are empty. -/
theorem reachable_state_matches_table (id : EntityId) (es : List CPEvent) :
    (runCP (initialControlPoint id) es).currentState =
      specStateTable (!(runCP (initialControlPoint id) es).redPlayersInTrigger.isEmpty)
        (!(runCP (initialControlPoint id) es).bluePlayersInTrigger.isEmpty) := by
  have h : stateInv (runCP (initialControlPoint id) es) :=
    runCP_inv es (initialControlPoint id) rfl
  exact h.trans (computedState_eq_table _ _)

theorem setAdd_mem (s : List Player) (x : Player) (h : x ∈ s) : setAdd s x = s := by
  simp [setAdd, h]

theorem updateCP_snd_isSome (s : ControlPointAuthorityState) :
    ((updateControlPointStateAuthority s).2).isSome = true ↔
      computedState s.redPlayersInTrigger s.bluePlayersInTrigger ≠ s.currentState := by
  unfold updateControlPointStateAuthority
  by_cases h :
      computedState s.redPlayersInTrigger s.bluePlayersInTrigger = s.currentState <;>
    simp [h]

/-- Team registry used in the end-to-end demonstration: player A on
Red, player B on Blue. -/
def demoRoster : List (Player × Team) := [("A", Team.Red), ("B", Team.Blue)]

/-- End-to-end event sequence of spec section 8.7, with a duplicate
enter of A inserted while A is already counted. -/
def demoEvents : List CPEvent :=
  [CPEvent.enterTrig demoRoster "A",
   CPEvent.enterTrig demoRoster "A",
   CPEvent.enterTrig demoRoster "B",
   CPEvent.exitTrig "A",
   CPEvent.exitTrig "B"]

/-- Expected broadcasts along demoEvents: one per state transition and
none for the duplicate enter. -/
def demoTrace : List (Option ControlPointStateChangedPayload) :=
  [some
     { controlPointEntity := "cp1", newState := ControlPointState.RedControlled
       redPlayersCount := 1, bluePlayersCount := 0 },
   none,
   some
     { controlPointEntity := "cp1", newState := ControlPointState.Contested
       redPlayersCount := 1, bluePlayersCount := 1 },
   some
     { controlPointEntity := "cp1", newState := ControlPointState.BlueControlled
       redPlayersCount := 0, bluePlayersCount := 1 },
   some
     { controlPointEntity := "cp1", newState := ControlPointState.Neutral
       redPlayersCount := 0, bluePlayersCount := 0 }]

/-- Claim C6: on any reachable authority state, a trigger event
broadcasts exactly when the recomputed state differs from the previous
state; a second enter by a player already counted in the matching
occupant set changes nothing and broadcasts nothing; and the section
8.7 scenario produces exactly one broadcast per state transition, with
none for the duplicate enter. -/
theorem broadcast_iff_state_changed (id : EntityId) (es : List CPEvent) (e : CPEvent)
    (roster : List (Player × Team)) (p : Player) :
    (((stepCP (runCP (initialControlPoint id) es) e).2).isSome = true ↔
        computedState (stepCP (runCP (initialControlPoint id) es) e).1.redPlayersInTrigger
            (stepCP (runCP (initialControlPoint id) es) e).1.bluePlayersInTrigger
          ≠ (runCP (initialControlPoint id) es).currentState)
    ∧ (mapGet roster p = some Team.Red →
        p ∈ (runCP (initialControlPoint id) es).redPlayersInTrigger →
        stepCP (runCP (initialControlPoint id) es) (CPEvent.enterTrig roster p)
          = (runCP (initialControlPoint id) es, none))
    ∧ (mapGet roster p = some Team.Blue →
        p ∈ (runCP (initialControlPoint id) es).bluePlayersInTrigger →
        stepCP (runCP (initialControlPoint id) es) (CPEvent.enterTrig roster p)
          = (runCP (initialControlPoint id) es, none))
    ∧ runCPTrace (initialControlPoint "cp1") demoEvents = demoTrace := by
  have hinv : stateInv (runCP (initialControlPoint id) es) :=
    runCP_inv es (initialControlPoint id) rfl
  refine ⟨?_, ?_, ?_, ?_⟩
  · cases e with
    | enterTrig r a =>
        cases hteam : mapGet r a with
        | none =>
            simp [stepCP, onTriggerEnterAuthority, hteam]
            exact hinv.symm
        | some t =>
            cases t <;>
              simp [stepCP, onTriggerEnterAuthority, hteam, updateCP_snd_isSome,
                updateCP_fst_red, updateCP_fst_blue, updateCP_fst_state]
    | exitTrig a =>
        simp [stepCP, onTriggerExitAuthority, updateCP_snd_isSome,
          updateCP_fst_red, updateCP_fst_blue, updateCP_fst_state]
  · intro hteam hmem
    have hs :
        ({ runCP (initialControlPoint id) es with
            redPlayersInTrigger :=
              setAdd (runCP (initialControlPoint id) es).redPlayersInTrigger p }
          : ControlPointAuthorityState)
          = runCP (initialControlPoint id) es := by
      rw [setAdd_mem _ _ hmem]
    simp only [stepCP, onTriggerEnterAuthority, hteam, hs]
    unfold updateControlPointStateAuthority
    simp
    exact hinv.symm
  · intro hteam hmem
    have hs :
        ({ runCP (initialControlPoint id) es with
            bluePlayersInTrigger :=
              setAdd (runCP (initialControlPoint id) es).bluePlayersInTrigger p }
          : ControlPointAuthorityState)
          = runCP (initialControlPoint id) es := by
      rw [setAdd_mem _ _ hmem]
    simp only [stepCP, onTriggerEnterAuthority, hteam, hs]
    unfold updateControlPointStateAuthority
    simp
    exact hinv.symm
  · decide

/-- Witness for claim C6: after A has entered, a second enter by A is a
no-op with no broadcast. -/
theorem broadcast_iff_state_changed_witness :
    stepCP (runCP (initialControlPoint "cp1") [CPEvent.enterTrig demoRoster "A"])
        (CPEvent.enterTrig demoRoster "A")
      = (runCP (initialControlPoint "cp1") [CPEvent.enterTrig demoRoster "A"], none) :=
  (broadcast_iff_state_changed "cp1" [CPEvent.enterTrig demoRoster "A"]
      (CPEvent.enterTrig demoRoster "A") demoRoster "A").2.1 (by decide) (by decide)

theorem join_counts (s : TeamManagerState) (p : Player) :
    ((stepTM s (TMEvent.join p)).1.redTeamCount = s.redTeamCount + 1
       ∧ (stepTM s (TMEvent.join p)).1.blueTeamCount = s.blueTeamCount
       ∧ s.redTeamCount ≤ s.blueTeamCount)
    ∨ ((stepTM s (TMEvent.join p)).1.blueTeamCount = s.blueTeamCount + 1
       ∧ (stepTM s (TMEvent.join p)).1.redTeamCount = s.redTeamCount
       ∧ s.blueTeamCount < s.redTeamCount) := by
  by_cases h : s.redTeamCount ≤ s.blueTeamCount
  · left
    simp [stepTM, onPlayerJoined, assignPlayerToTeamWithBalancing, h]
  · right
    simp [stepTM, onPlayerJoined, assignPlayerToTeamWithBalancing, h]
    omega

theorem runTM_join_bounds (joins : List Player) (s : TeamManagerState)
    (h1 : s.blueTeamCount ≤ s.redTeamCount)
    (h2 : s.redTeamCount ≤ s.blueTeamCount + 1) :
    (runTM s (joins.map TMEvent.join)).blueTeamCount
        ≤ (runTM s (joins.map TMEvent.join)).redTeamCount
    ∧ (runTM s (joins.map TMEvent.join)).redTeamCount
        ≤ (runTM s (joins.map TMEvent.join)).blueTeamCount + 1 := by
  induction joins generalizing s with
  | nil => exact ⟨h1, h2⟩
  | cons p rest ih =>
      simp only [List.map_cons, runTM]
      rcases join_counts s p with ⟨hr, hb, hle⟩ | ⟨hb, hr, hlt⟩
      · exact ih _ (by omega) (by omega)
      · exact ih _ (by omega) (by omega)

/-- Claim C5: starting from the empty team state, after any sequence
of authority join events with no leaves, the red and blue counters
differ by at most one in absolute value. -/
theorem join_sequence_balance (joins : List Player) :
    |(runTM initialTeamManagerState (joins.map TMEvent.join)).redTeamCount
        - (runTM initialTeamManagerState (joins.map TMEvent.join)).blueTeamCount| ≤ 1 := by
  obtain ⟨hb, hr⟩ := runTM_join_bounds joins initialTeamManagerState (by decide) (by decide)
  exact abs_le.mpr ⟨by omega, by omega⟩

theorem mapGet_eq_none_of_not_mem (m : List (Player × Team)) (p : Player)
    (h : p ∉ m.map Prod.fst) : mapGet m p = none := by
  induction m with
  | nil => rfl
  | cons e rest ih =>
      obtain ⟨a, b⟩ := e
      simp only [List.map_cons, List.mem_cons] at h
      push_neg at h
      simp [mapGet, Ne.symm h.1, ih h.2]

theorem mem_keys_mapSet (m : List (Player × Team)) (k q : Player) (v : Team) :
    q ∈ (mapSet m k v).map Prod.fst ↔ q ∈ m.map Prod.fst ∨ q = k := by
  induction m with
  | nil => simp [mapSet]
  | cons e rest ih =>
      obtain ⟨a, b⟩ := e
      by_cases hak : a = k
      · subst hak
        simp [mapSet]
        tauto
      · simp [mapSet, hak, ih]
        tauto

theorem nodup_keys_mapSet (m : List (Player × Team)) (k : Player) (v : Team)
    (h : (m.map Prod.fst).Nodup) : ((mapSet m k v).map Prod.fst).Nodup := by
  induction m with
  | nil => simp [mapSet]
  | cons e rest ih =>
      obtain ⟨a, b⟩ := e
      simp only [List.map_cons, List.nodup_cons] at h
      by_cases hak : a = k
      · subst hak
        simpa [mapSet, List.nodup_cons] using h
      · simp only [mapSet, if_neg hak, List.map_cons, List.nodup_cons]
        refine ⟨?_, ih h.2⟩
        rw [mem_keys_mapSet]
        push_neg
        exact ⟨h.1, hak⟩

theorem sublist_keys_mapDelete (m : List (Player × Team)) (p : Player) :
    ((mapDelete m p).map Prod.fst).Sublist (m.map Prod.fst) := by
  induction m with
  | nil => simp [mapDelete]
  | cons e rest ih =>
      obtain ⟨a, b⟩ := e
      by_cases hap : a = p
      · simp only [mapDelete, hap, if_pos, List.map_cons]
        exact List.sublist_cons_self _ _
      · simp only [mapDelete, hap, if_neg, List.map_cons]
        exact ih.cons₂ _

theorem nodup_keys_mapDelete (m : List (Player × Team)) (p : Player)
    (h : (m.map Prod.fst).Nodup) : ((mapDelete m p).map Prod.fst).Nodup :=
  h.sublist (sublist_keys_mapDelete m p)

/-- Key uniqueness of the roster map, the JavaScript Map invariant. -/
def keysNodup (s : TeamManagerState) : Prop :=
  (s.playerTeams.map Prod.fst).Nodup

theorem stepTM_keysNodup (s : TeamManagerState) (e : TMEvent) (h : keysNodup s) :
    keysNodup (stepTM s e).1 := by
  cases e with
  | join p =>
      by_cases hc : s.redTeamCount ≤ s.blueTeamCount <;>
        · simp only [stepTM, onPlayerJoined, assignPlayerToTeamWithBalancing, hc,
            if_pos, if_neg, keysNodup]
          exact nodup_keys_mapSet _ _ _ h
  | leave p =>
      cases hg : mapGet s.playerTeams p with
      | none => simpa [stepTM, onPlayerLeft, hg, keysNodup] using h
      | some t =>
          cases t <;>
            · simp only [stepTM, onPlayerLeft, hg, removePlayerFromTeamWithBalancing,
                keysNodup]
              exact nodup_keys_mapDelete _ _ h

theorem runTM_keysNodup (es : List TMEvent) (s : TeamManagerState) (h : keysNodup s) :
    keysNodup (runTM s es) := by
  induction es generalizing s with
  | nil => exact h
  | cons e es ih => exact ih _ (stepTM_keysNodup s e h)

theorem mapGet_mapDelete_self (m : List (Player × Team)) (p : Player)
    (h : (m.map Prod.fst).Nodup) : mapGet (mapDelete m p) p = none := by
  induction m with
  | nil => rfl
  | cons e rest ih =>
      obtain ⟨a, b⟩ := e
      simp only [List.map_cons, List.nodup_cons] at h
      by_cases hap : a = p
      · subst hap
        simp only [mapDelete, if_pos]
        exact mapGet_eq_none_of_not_mem rest a h.1
      · simp [mapDelete, hap, mapGet, ih h.2]

theorem leave_counts (s : TeamManagerState) (p : Player) :
    ((stepTM s (TMEvent.leave p)).1.redTeamCount = s.redTeamCount
      ∧ (stepTM s (TMEvent.leave p)).1.blueTeamCount = s.blueTeamCount)
    ∨ ((stepTM s (TMEvent.leave p)).1.redTeamCount = max 0 (s.redTeamCount - 1)
      ∧ (stepTM s (TMEvent.leave p)).1.blueTeamCount = s.blueTeamCount)
    ∨ ((stepTM s (TMEvent.leave p)).1.blueTeamCount = max 0 (s.blueTeamCount - 1)
      ∧ (stepTM s (TMEvent.leave p)).1.redTeamCount = s.redTeamCount) := by
  cases hg : mapGet s.playerTeams p with
  | none => left; simp [stepTM, onPlayerLeft, hg]
  | some t =>
      cases t with
      | Red =>
          right; left
          simp [stepTM, onPlayerLeft, hg, removePlayerFromTeamWithBalancing]
      | Blue =>
          right; right
          simp [stepTM, onPlayerLeft, hg, removePlayerFromTeamWithBalancing]

theorem stepTM_nonneg (s : TeamManagerState) (e : TMEvent)
    (h1 : 0 ≤ s.redTeamCount) (h2 : 0 ≤ s.blueTeamCount) :
    0 ≤ (stepTM s e).1.redTeamCount ∧ 0 ≤ (stepTM s e).1.blueTeamCount := by
  cases e with
  | join p =>
      rcases join_counts s p with ⟨hr, hb, _⟩ | ⟨hb, hr, _⟩ <;> constructor <;> omega
  | leave p =>
      have hmr := le_max_left (0 : Int) (s.redTeamCount - 1)
      have hmb := le_max_left (0 : Int) (s.blueTeamCount - 1)
      rcases leave_counts s p with ⟨hr, hb⟩ | ⟨hr, hb⟩ | ⟨hb, hr⟩ <;>
        constructor <;> omega

theorem runTM_nonneg (es : List TMEvent) (s : TeamManagerState)
    (h1 : 0 ≤ s.redTeamCount) (h2 : 0 ≤ s.blueTeamCount) :
    0 ≤ (runTM s es).redTeamCount ∧ 0 ≤ (runTM s es).blueTeamCount := by
  induction es generalizing s with
  | nil => exact ⟨h1, h2⟩
  | cons e es ih =>
      exact ih _ (stepTM_nonneg s e h1 h2).1 (stepTM_nonneg s e h1 h2).2

/-- Claim C8: leaving without a roster entry is a state-preserving
no-op with no broadcast; a rostered player's leave floors the team
counter at zero and removes the roster entry; and after any sequence
of authority join and leave events from the empty state both counters
are nonnegative. -/
theorem leave_safe (es : List TMEvent) (p : Player) (t : Team) :
    (mapGet (runTM initialTeamManagerState es).playerTeams p = none →
      onPlayerLeft (runTM initialTeamManagerState es) p
        = (runTM initialTeamManagerState es, none))
    ∧ (mapGet (runTM initialTeamManagerState es).playerTeams p = some t →
        mapGet ((onPlayerLeft (runTM initialTeamManagerState es) p).1).playerTeams p = none
        ∧ (t = Team.Red →
            ((onPlayerLeft (runTM initialTeamManagerState es) p).1).redTeamCount
                = max 0 ((runTM initialTeamManagerState es).redTeamCount - 1)
              ∧ ((onPlayerLeft (runTM initialTeamManagerState es) p).1).blueTeamCount
                = (runTM initialTeamManagerState es).blueTeamCount)
        ∧ (t = Team.Blue →
            ((onPlayerLeft (runTM initialTeamManagerState es) p).1).blueTeamCount
                = max 0 ((runTM initialTeamManagerState es).blueTeamCount - 1)
              ∧ ((onPlayerLeft (runTM initialTeamManagerState es) p).1).redTeamCount
                = (runTM initialTeamManagerState es).redTeamCount))
    ∧ (0 ≤ (runTM initialTeamManagerState es).redTeamCount
        ∧ 0 ≤ (runTM initialTeamManagerState es).blueTeamCount) := by
  refine ⟨?_, ?_, runTM_nonneg es initialTeamManagerState (by decide) (by decide)⟩
  · intro h
    simp [onPlayerLeft, h]
  · intro h
    have hnd : keysNodup (runTM initialTeamManagerState es) :=
      runTM_keysNodup es initialTeamManagerState (by simp [keysNodup, initialTeamManagerState])
    refine ⟨?_, ?_, ?_⟩
    · cases t <;>
        · simp only [onPlayerLeft, h, removePlayerFromTeamWithBalancing]
          exact mapGet_mapDelete_self _ _ hnd
    · intro ht
      subst ht
      simp [onPlayerLeft, h, removePlayerFromTeamWithBalancing]
    · intro ht
      subst ht
      simp [onPlayerLeft, h, removePlayerFromTeamWithBalancing]

/-- Witness for claim C8: after A joins, a leave by unrostered Z is a
no-op and A's leave removes A's roster entry. -/
theorem leave_safe_witness :
    onPlayerLeft (runTM initialTeamManagerState [TMEvent.join "A"]) "Z"
      = (runTM initialTeamManagerState [TMEvent.join "A"], none)
    ∧ mapGet
        ((onPlayerLeft (runTM initialTeamManagerState [TMEvent.join "A"]) "A").1).playerTeams
        "A" = none := by
  constructor
  · exact (leave_safe [TMEvent.join "A"] "Z" Team.Red).1 (by decide)
  · exact ((leave_safe [TMEvent.join "A"] "A" Team.Red).2.1 (by decide)).1

/-- Number of roster entries mapped to the given team. -/
def countTeam : List (Player × Team) → Team → Int
  | [], _ => 0
  | (_, v) :: rest, t => (if v = t then 1 else 0) + countTeam rest t

theorem countTeam_nonneg (m : List (Player × Team)) (t : Team) :
    0 ≤ countTeam m t := by
  induction m with
  | nil => simp [countTeam]
  | cons e rest ih =>
      obtain ⟨a, b⟩ := e
      simp only [countTeam]
      by_cases h : b = t
      · rw [if_pos h]
        omega
      · rw [if_neg h]
        omega

theorem countTeam_append (m1 m2 : List (Player × Team)) (t : Team) :
    countTeam (m1 ++ m2) t = countTeam m1 t + countTeam m2 t := by
  induction m1 with
  | nil => simp [countTeam]
  | cons e rest ih =>
      obtain ⟨a, b⟩ := e
      simp only [List.cons_append, countTeam, List.append_eq]
      rw [ih]
      omega

theorem mapSet_of_get_none (m : List (Player × Team)) (k : Player) (v : Team)
    (h : mapGet m k = none) : mapSet m k v = m ++ [(k, v)] := by
  induction m with
  | nil => rfl
  | cons e rest ih =>
      obtain ⟨a, b⟩ := e
      by_cases hak : a = k
      · simp [mapGet, hak] at h
      · simp only [mapGet, if_neg hak] at h
        simp [mapSet, hak, ih h]

theorem countTeam_mapDelete (m : List (Player × Team)) (p : Player) (t u : Team)
    (h : mapGet m p = some t) :
    countTeam (mapDelete m p) u = countTeam m u - (if t = u then 1 else 0) := by
  induction m with
  | nil => simp [mapGet] at h
  | cons e rest ih =>
      obtain ⟨a, b⟩ := e
      by_cases hap : a = p
      · simp only [mapGet, if_pos hap, Option.some.injEq] at h
        subst h
        simp only [mapDelete, if_pos hap, countTeam]
        omega
      · simp only [mapGet, if_neg hap] at h
        simp only [mapDelete, if_neg hap, countTeam, ih h]
        omega

theorem countTeam_pos_of_get (m : List (Player × Team)) (p : Player) (t : Team)
    (h : mapGet m p = some t) : 1 ≤ countTeam m t := by
  induction m with
  | nil => simp [mapGet] at h
  | cons e rest ih =>
      obtain ⟨a, b⟩ := e
      have hn := countTeam_nonneg rest t
      show 1 ≤ (if b = t then 1 else 0) + countTeam rest t
      by_cases hap : a = p
      · simp only [mapGet, if_pos hap, Option.some.injEq] at h
        rw [if_pos h]
        omega
      · simp only [mapGet, if_neg hap] at h
        have h1 := ih h
        by_cases hbt : b = t
        · rw [if_pos hbt]
          omega
        · rw [if_neg hbt]
          omega

theorem countTeam_red_add_blue (m : List (Player × Team)) :
    countTeam m Team.Red + countTeam m Team.Blue = (m.length : Int) := by
  induction m with
  | nil => simp [countTeam]
  | cons e rest ih =>
      obtain ⟨a, b⟩ := e
      cases b <;> simp [countTeam, ih.symm] <;> omega

/-- Precondition for the roster/count correspondence: along the event
sequence, no player joins while already holding a roster entry. -/
def noDoubleJoin : TeamManagerState → List TMEvent → Prop
  | _, [] => True
  | s, TMEvent.join p :: es =>
      mapGet s.playerTeams p = none
        ∧ noDoubleJoin (stepTM s (TMEvent.join p)).1 es
  | s, TMEvent.leave p :: es => noDoubleJoin (stepTM s (TMEvent.leave p)).1 es

theorem countTeam_single (p : Player) (t u : Team) :
    countTeam [(p, t)] u = if t = u then 1 else 0 := by
  simp [countTeam]

theorem join_playerTeams_fresh (s : TeamManagerState) (p : Player)
    (hfresh : mapGet s.playerTeams p = none) :
    ((stepTM s (TMEvent.join p)).1.playerTeams = s.playerTeams ++ [(p, Team.Red)]
       ∧ (stepTM s (TMEvent.join p)).1.redTeamCount = s.redTeamCount + 1
       ∧ (stepTM s (TMEvent.join p)).1.blueTeamCount = s.blueTeamCount)
    ∨ ((stepTM s (TMEvent.join p)).1.playerTeams = s.playerTeams ++ [(p, Team.Blue)]
       ∧ (stepTM s (TMEvent.join p)).1.blueTeamCount = s.blueTeamCount + 1
       ∧ (stepTM s (TMEvent.join p)).1.redTeamCount = s.redTeamCount) := by
  by_cases hc : s.redTeamCount ≤ s.blueTeamCount
  · left
    simp [stepTM, onPlayerJoined, assignPlayerToTeamWithBalancing, hc,
      mapSet_of_get_none _ _ _ hfresh]
  · right
    simp [stepTM, onPlayerJoined, assignPlayerToTeamWithBalancing, hc,
      mapSet_of_get_none _ _ _ hfresh]

theorem runTM_correspondence (es : List TMEvent) (s : TeamManagerState)
    (hnd : noDoubleJoin s es)
    (h1 : s.redTeamCount = countTeam s.playerTeams Team.Red)
    (h2 : s.blueTeamCount = countTeam s.playerTeams Team.Blue) :
    (runTM s es).redTeamCount = countTeam (runTM s es).playerTeams Team.Red
    ∧ (runTM s es).blueTeamCount = countTeam (runTM s es).playerTeams Team.Blue := by
  induction es generalizing s with
  | nil => exact ⟨h1, h2⟩
  | cons e es ih =>
      cases e with
      | join p =>
          obtain ⟨hfresh, hrest⟩ := hnd
          rcases join_playerTeams_fresh s p hfresh with ⟨hm, hr, hb⟩ | ⟨hm, hb, hr⟩ <;>
            refine ih _ hrest ?_ ?_ <;>
              simp [hm, hr, hb, countTeam_append, countTeam_single, h1, h2]
      | leave p =>
          have hnd2 : noDoubleJoin (stepTM s (TMEvent.leave p)).1 es := hnd
          cases hg : mapGet s.playerTeams p with
          | none =>
              refine ih _ hnd2 ?_ ?_ <;> simp [stepTM, onPlayerLeft, hg, h1, h2]
          | some t =>
              have hpos := countTeam_pos_of_get s.playerTeams p t hg
              have hdr := countTeam_mapDelete s.playerTeams p t Team.Red hg
              have hdb := countTeam_mapDelete s.playerTeams p t Team.Blue hg
              have hm : (stepTM s (TMEvent.leave p)).1.playerTeams
                  = mapDelete s.playerTeams p := by
                cases t <;>
                  simp [stepTM, onPlayerLeft, hg, removePlayerFromTeamWithBalancing]
              refine ih _ hnd2 ?_ ?_
              · cases t with
                | Red =>
                    have hr : (stepTM s (TMEvent.leave p)).1.redTeamCount
                        = max 0 (s.redTeamCount - 1) := by
                      simp [stepTM, onPlayerLeft, hg, removePlayerFromTeamWithBalancing]
                    rw [hr, hm, hdr, h1]
                    rw [max_eq_right (by omega)]
                    simp
                | Blue =>
                    have hr : (stepTM s (TMEvent.leave p)).1.redTeamCount
                        = s.redTeamCount := by
                      simp [stepTM, onPlayerLeft, hg, removePlayerFromTeamWithBalancing]
                    rw [hr, hm, hdr, h1]
                    simp
              · cases t with
                | Red =>
                    have hb : (stepTM s (TMEvent.leave p)).1.blueTeamCount
                        = s.blueTeamCount := by
                      simp [stepTM, onPlayerLeft, hg, removePlayerFromTeamWithBalancing]
                    rw [hb, hm, hdb, h2]
                    simp
                | Blue =>
                    have hb : (stepTM s (TMEvent.leave p)).1.blueTeamCount
                        = max 0 (s.blueTeamCount - 1) := by
                      simp [stepTM, onPlayerLeft, hg, removePlayerFromTeamWithBalancing]
                    rw [hb, hm, hdb, h2]
                    rw [max_eq_right (by omega)]
                    simp

/-- Claim C10: with no player joining twice without an intervening
leave, the counters match the roster after any authority join and
leave sequence from the empty state (redTeamCount counts the Red
entries, blueTeamCount the Blue ones, and their sum is the roster
size); and a double join of the same player breaks the correspondence:
a counter is incremented while the roster keeps a single entry. -/
theorem roster_count_correspondence (es : List TMEvent)
    (h : noDoubleJoin initialTeamManagerState es) :
    ((runTM initialTeamManagerState es).redTeamCount
        = countTeam (runTM initialTeamManagerState es).playerTeams Team.Red
      ∧ (runTM initialTeamManagerState es).blueTeamCount
        = countTeam (runTM initialTeamManagerState es).playerTeams Team.Blue
      ∧ (runTM initialTeamManagerState es).redTeamCount
          + (runTM initialTeamManagerState es).blueTeamCount
        = ((runTM initialTeamManagerState es).playerTeams.length : Int))
    ∧ ((runTM initialTeamManagerState [TMEvent.join "p", TMEvent.join "p"]).redTeamCount
          + (runTM initialTeamManagerState [TMEvent.join "p", TMEvent.join "p"]).blueTeamCount
        ≠ ((runTM initialTeamManagerState
              [TMEvent.join "p", TMEvent.join "p"]).playerTeams.length : Int)
      ∧ (runTM initialTeamManagerState [TMEvent.join "p", TMEvent.join "p"]).redTeamCount
        ≠ countTeam (runTM initialTeamManagerState
              [TMEvent.join "p", TMEvent.join "p"]).playerTeams Team.Red) := by
  constructor
  · have h12 := runTM_correspondence es initialTeamManagerState h rfl rfl
    exact ⟨h12.1, h12.2, by rw [h12.1, h12.2, countTeam_red_add_blue]⟩
  · exact ⟨by decide, by decide⟩

/-- Witness for claim C10: the correspondence holds after two distinct
joins. -/
theorem roster_count_correspondence_witness :
    (runTM initialTeamManagerState [TMEvent.join "A", TMEvent.join "B"]).redTeamCount
      = countTeam
          (runTM initialTeamManagerState [TMEvent.join "A", TMEvent.join "B"]).playerTeams
          Team.Red :=
  ((roster_count_correspondence [TMEvent.join "A", TMEvent.join "B"]
      ⟨rfl, rfl, trivial⟩).1).1

end KOTH
